import Mathlib

/-
A shallow embedding of the e-commerce support chatbot backend
(src/main.py, src/db_tool.py, src/db_seed.py, src/db_model.py).

Python strings are modelled as Lean strings, processed through explicit
list-of-characters functions so that every definition evaluates inside the
kernel.  The regular expressions used by the code are small and fixed, so
each one is modelled by a dedicated search function with the same
semantics (leftmost match, case flags and word boundaries as written in
the source).  The database is modelled as in-memory lists with an explicit
logical clock for the `created_at` column; SQL `ORDER BY` is modelled by a
stable insertion sort on that column.
-/

namespace Ecom

/-! ## Character and string utilities (models of Python str / re behaviour) -/

/-- Python `\w`: ASCII letters, digits and underscore (the inputs handled by
the service are ASCII, so the Unicode extension of `\w` is not modelled). -/
def isWordChar (c : Char) : Bool := c.isAlphanum || c == '_'

/-- Case-insensitive character comparison, as under `re.I`. -/
def lowerEq (a b : Char) : Bool := a.toLower == b.toLower

/-- Model of Python `str.lower()`. -/
def pyLower (s : String) : String := String.mk (s.toList.map Char.toLower)

/-- Drop leading whitespace. -/
def dropLeadingWS (s : List Char) : List Char :=
  match s with
  | [] => []
  | c :: cs => if c.isWhitespace then dropLeadingWS cs else c :: cs

/-- Model of Python `str.strip()`. -/
def pyStrip (s : String) : String :=
  String.mk ((dropLeadingWS (dropLeadingWS s.toList).reverse).reverse)

/-- Split a character list on runs of whitespace, dropping empty pieces:
model of Python `str.split()` with no arguments. -/
def splitWS : List Char → List (List Char)
  | [] => []
  | c :: cs =>
      if c.isWhitespace then splitWS cs
      else
        match splitWS cs with
        | [] => [[c]]
        | w :: ws =>
            match cs with
            | [] => [[c]]
            | d :: _ => if d.isWhitespace then [c] :: w :: ws else (c :: w) :: ws

/-- If `pat` matches the beginning of `s` under `eqc`, return the prefix of
`s` that it matched (the text as it appears in `s`). -/
def matchLit (eqc : Char → Char → Bool) : List Char → List Char → Option (List Char)
  | [], _ => some []
  | _ :: _, [] => none
  | p :: ps, c :: cs =>
      if eqc p c then (matchLit eqc ps cs).map (fun r => c :: r) else none

/-- A `\b` word boundary holds before a word character when the previous
character is absent or not a word character. -/
def boundaryOk (prev : Option Char) : Bool :=
  match prev with
  | none => true
  | some p => !isWordChar p

/-- A `\b` word boundary holds after a word character when the next
character is absent or not a word character. -/
def afterOk : List Char → Bool
  | [] => true
  | c :: _ => !isWordChar c

/-- Leftmost case-insensitive whole-word occurrence of the literal `pat`
in the text, returning the matched text: model of
`re.search(rf"\b(pat)\b", text, re.I)` for a literal `pat` that starts and
ends with word characters. -/
def searchWordCIFrom (pat : List Char) : Option Char → List Char → Option (List Char)
  | _, [] => none
  | prev, c :: cs =>
      let attempt : Option (List Char) :=
        if boundaryOk prev then
          match matchLit lowerEq pat (c :: cs) with
          | some m => if afterOk ((c :: cs).drop m.length) then some m else none
          | none => none
        else none
      match attempt with
      | some m => some m
      | none => searchWordCIFrom pat (some c) cs

def searchWordCI (pat : List Char) (s : List Char) : Option (List Char) :=
  searchWordCIFrom pat none s

/-- Does some keyword of the alternation match as a whole word,
case-insensitively?  Model of the truthiness of
`re.search(r"\b(k1|k2|...)\b", message, re.I)`. -/
def containsAnyWordCI (kws : List String) (msg : String) : Bool :=
  kws.any (fun k => (searchWordCI k.toList msg.toList).isSome)

/-- Maximal leading run of ASCII digits. -/
def takeDigits : List Char → List Char
  | [] => []
  | c :: cs => if c.isDigit then c :: takeDigits cs else []

/-- Leftmost match of `letters` followed by one or more digits (no word
boundaries), returning the matched text: model of
`re.search(r"(LETTERS\d+)", s)` with character comparison `eqc`. -/
def searchId (eqc : Char → Char → Bool) (letters : List Char) : List Char → Option (List Char)
  | [] => none
  | c :: cs =>
      match matchLit eqc letters (c :: cs) with
      | some m =>
          match (c :: cs).drop m.length with
          | d :: rest =>
              if d.isDigit then some (m ++ d :: takeDigits rest)
              else searchId eqc letters cs
          | [] => searchId eqc letters cs
      | none => searchId eqc letters cs

/-- Leftmost match of `\bP\d+\b` (case-sensitive, as in
`handle_warranty_safeguard`, which passes no `re.I` flag). -/
def searchPIdWord : Option Char → List Char → Option (List Char)
  | _, [] => none
  | prev, c :: cs =>
      let headDigit : Bool :=
        match cs with
        | d :: _ => d.isDigit
        | [] => false
      if boundaryOk prev && c == 'P' && headDigit then
        let ds := takeDigits cs
        if afterOk (cs.drop ds.length) then some ('P' :: ds)
        else searchPIdWord (some c) cs
      else searchPIdWord (some c) cs

/-- Is `needle` a case-insensitive prefix of `hay`? -/
def isPrefixCI (needle hay : List Char) : Bool :=
  (matchLit lowerEq needle hay).isSome

/-- Case-insensitive substring containment: model of SQL
`name ILIKE '%needle%'` for a `needle` with no LIKE metacharacters. -/
def containsSubCI (needle : List Char) : List Char → Bool
  | [] => needle.isEmpty
  | c :: t => isPrefixCI needle (c :: t) || containsSubCI needle t

/-- Model of Python `str.startswith("P")`. -/
def startsWithP (s : String) : Bool :=
  match s.toList with
  | [] => false
  | c :: _ => c == 'P'

/-! ## Data model (src/db_model.py) -/

structure Product where
  id : String
  name : String
  description : String
  pros : String
  cons : String
  warrantyId : Option Nat
deriving DecidableEq, Repr

structure Warranty where
  id : Nat
  durationMonths : Nat
  terms : String
deriving DecidableEq, Repr

structure Order where
  orderId : String
  userId : String
  status : String
  tracking : Option String
  createdAt : Nat
  productId : String
deriving DecidableEq, Repr

structure Message where
  userId : String
  role : String
  content : String
  createdAt : Nat
deriving DecidableEq, Repr

/-- The relational store, with a logical clock supplying the strictly
increasing `created_at` values that `datetime.utcnow` provides. -/
structure Store where
  messages : List Message
  orders : List Order
  products : List Product
  warranties : List Warranty
  nextTime : Nat
deriving DecidableEq, Repr

/-- Stable insertion of `a` into `l` before the first element `b` with
`le a b`. -/
def insertLe {α : Type} (le : α → α → Bool) (a : α) : List α → List α
  | [] => [a]
  | b :: bs => if le a b then a :: b :: bs else b :: insertLe le a bs

/-- Stable insertion sort: model of SQL `ORDER BY`. -/
def sortLe {α : Type} (le : α → α → Bool) : List α → List α
  | [] => []
  | a :: as => insertLe le a (sortLe le as)

/-! ## db_tool.py -/

/-- Model of `persist_message`: append one conversation turn, stamping it with the
current clock. -/
def persist_message (st : Store) (uid role content : String) : Store :=
  { st with
      messages := st.messages ++ [{ userId := uid, role := role, content := content, createdAt := st.nextTime }]
      nextTime := st.nextTime + 1 }

structure HistMsg where
  role : String
  content : String
deriving DecidableEq, Repr

/-- Model of `get_last_n_messages`: the user's messages ordered by `created_at`
descending, limited to `n`, projected to role and content. -/
def get_last_n_messages (st : Store) (uid : String) (n : Nat) : List HistMsg :=
  ((sortLe (fun a b => decide (b.createdAt ≤ a.createdAt))
      (st.messages.filter (fun m => m.userId == uid))).take n).map
    (fun m => { role := m.role, content := m.content })

structure HistOut where
  role : String
  content : String
  createdAt : Nat
deriving DecidableEq, Repr

/-- Model of `get_all_messages_for_user`: all of the user's messages ordered by
`created_at` ascending. -/
def get_all_messages_for_user (st : Store) (uid : String) : List HistOut :=
  (sortLe (fun a b => decide (a.createdAt ≤ b.createdAt))
      (st.messages.filter (fun m => m.userId == uid))).map
    (fun m => { role := m.role, content := m.content, createdAt := m.createdAt })

structure OrderStatusOut where
  found : Bool
  orderId : Option String
  status : Option String
  tracking : Option String
  userId : Option String
  productId : Option String
  productName : Option String
deriving DecidableEq, Repr

/-- The `order.product` relationship: the product row the order's foreign
key points at. -/
def productOfOrder (products : List Product) (o : Order) : Option Product :=
  products.find? (fun p => p.id == o.productId)

/-- The dictionary built for a found order (shared by `get_order_status`,
`get_user_order_status` and the latest-order branch of `chat`). -/
def orderFoundOut (products : List Product) (o : Order) : OrderStatusOut :=
  { found := true
    orderId := some o.orderId
    status := some o.status
    tracking := o.tracking
    userId := some o.userId
    productId := (productOfOrder products o).map (fun p => p.id)
    productName := (productOfOrder products o).map (fun p => p.name) }

/-- Model of `get_order_status`: look an order up by id only, for any user. -/
def get_order_status (orders : List Order) (products : List Product) (oid : String) : OrderStatusOut :=
  match orders.find? (fun o => o.orderId == oid) with
  | none =>
      { found := false, orderId := some oid, status := none, tracking := none
        userId := none, productId := none, productName := none }
  | some o => orderFoundOut products o

/-- Model of `get_user_order_status`: look an order up by id, scoped to `uid`. -/
def get_user_order_status (orders : List Order) (products : List Product) (uid oid : String) : OrderStatusOut :=
  match orders.find? (fun o => o.orderId == oid && o.userId == uid) with
  | none =>
      { found := false, orderId := some oid, status := none, tracking := none
        userId := none, productId := none, productName := none }
  | some o => orderFoundOut products o

/-- Model of `get_latest_order_for_user`: the user's order with the greatest
`created_at` (first match wins among equal stamps). -/
def get_latest_order_for_user (orders : List Order) (uid : String) : Option Order :=
  (orders.filter (fun o => o.userId == uid)).foldl
    (fun acc o =>
      match acc with
      | none => some o
      | some b => if b.createdAt < o.createdAt then some o else some b)
    none

structure ProductOut where
  id : String
  name : String
  description : String
  pros : String
  cons : String
deriving DecidableEq, Repr

/-- The product row selected by `get_product_info` / `get_warranty_info`:
exact id first; a case-insensitive name search only when the identifier
does not start with `'P'`. -/
def findProductByIdentifier (products : List Product) (ident : String) : Option Product :=
  match products.find? (fun p => p.id == ident) with
  | some p => some p
  | none =>
      if !startsWithP ident then
        products.find? (fun p => containsSubCI ident.toList p.name.toList)
      else none

/-- Model of `get_product_info`: project the selected product row. -/
def get_product_info (products : List Product) (ident : String) : Option ProductOut :=
  (findProductByIdentifier products ident).map
    (fun p => { id := p.id, name := p.name, description := p.description, pros := p.pros, cons := p.cons })

structure WarrantyOut where
  product : String
  productId : String
  durationMonths : Nat
  terms : String
deriving DecidableEq, Repr

/-- Model of `get_warranty_info`: same product selection as `get_product_info`,
then requires the product's warranty row to exist. -/
def get_warranty_info (products : List Product) (warranties : List Warranty) (ident : String) : Option WarrantyOut :=
  match findProductByIdentifier products ident with
  | some p =>
      match p.warrantyId.bind (fun wid => warranties.find? (fun w => w.id == wid)) with
      | some w =>
          some { product := p.name, productId := p.id, durationMonths := w.durationMonths, terms := w.terms }
      | none => none
  | none => none

/-! ## Pattern cache and extraction (src/main.py) -/

/-- Patterns are stored by the body of the regex `rf"\b({re.escape(body)})\b"`;
`re.escape` is injective and does not change matching of a literal, so the
body itself is the key. -/
abbrev PatternList := List (List Char)

abbrev PatternMap := List (List Char × String)

/-- The "significant words" of a product name: the pieces of
`name.lower().split()` longer than three characters. -/
def significantWords (name : String) : List (List Char) :=
  (splitWS (pyLower name).toList).filter (fun w => w.length > 3)

/-- The patterns contributed by one product, in insertion order: the exact
lowercased name, then each significant word. -/
def productPatternEntries (p : Product) : List (List Char) :=
  (pyLower p.name).toList :: significantWords p.name

/-- Model of the pattern derivation of `get_product_patterns`: the ordered pattern list
and the pattern-to-product-name mapping, built per product in catalog
iteration order. -/
def productPatterns : List Product → PatternList × PatternMap
  | [] => ([], [])
  | p :: rest =>
      let mine := productPatternEntries p
      let (ps, m) := productPatterns rest
      (mine ++ ps, mine.map (fun w => (w, p.name)) ++ m)

/-- Python-dict lookup on the association list: a later binding of the same
key overwrites an earlier one, so the last binding wins. -/
def dictGet (k : List Char) : PatternMap → Option String
  | [] => none
  | (k2, v) :: rest =>
      match dictGet k rest with
      | some v2 => some v2
      | none => if k == k2 then some v else none

/-- The process-wide cache globals `_product_patterns_cache` and
`_cache_timestamp`. -/
structure CacheState where
  patterns : Option (PatternList × PatternMap)
  timestamp : Option Nat
deriving DecidableEq, Repr

def invalidatedCache : CacheState := { patterns := none, timestamp := none }

/-- Model of `get_product_patterns`: serve the cached pair while it is younger than
300 seconds, otherwise rebuild from the catalog and refresh the stamp. -/
def get_product_patterns (cache : CacheState) (now : Nat) (catalog : List Product) :
    (PatternList × PatternMap) × CacheState :=
  match cache.patterns, cache.timestamp with
  | some pp, some ts =>
      if now - ts < 300 then (pp, cache)
      else
        let pp2 := productPatterns catalog
        (pp2, { patterns := some pp2, timestamp := some now })
  | _, _ =>
      let pp2 := productPatterns catalog
      (pp2, { patterns := some pp2, timestamp := some now })

structure Extracted where
  orderId : Option String
  productId : Option String
  productName : Option String
  matchedProduct : Option String
deriving DecidableEq, Repr

/-- The loop of `extract_patterns`: the first pattern in list order that
matches the message wins, yielding the pattern and its matched text. -/
def firstPatternMatch : PatternList → List Char → Option (List Char × List Char)
  | [], _ => none
  | p :: ps, s =>
      match searchWordCI p s with
      | some m => some (p, m)
      | none => firstPatternMatch ps s

/-- The pure part of `extract_patterns`, given the cached pattern pair. -/
def extractFromPatterns (pp : PatternList × PatternMap) (msg : String) : Extracted :=
  let found := firstPatternMatch pp.1 msg.toList
  { orderId := (searchId lowerEq ['o', 'r', 'd'] msg.toList).map String.mk
    productId := (searchId lowerEq ['p'] msg.toList).map String.mk
    productName := found.map (fun pr => String.mk pr.2)
    matchedProduct := found.bind (fun pr => dictGet pr.1 pp.2) }

/-- Model of `extract_patterns`: entity extraction through the pattern cache. -/
def extract_patterns (cache : CacheState) (now : Nat) (catalog : List Product) (msg : String) :
    Extracted × CacheState :=
  let (pp, cache2) := get_product_patterns cache now catalog
  (extractFromPatterns pp msg, cache2)

/-! ## Fallback classifier and warranty safeguard (src/main.py) -/

def orderKeywords : List String :=
  ["pesanan saya", "status pesanan", "dimana pesanan", "my order", "order status"]

def warrantyKeywords : List String := ["garansi", "warranty", "guarantee", "jaminan"]

def productKeywords : List String :=
  ["kelebihan", "kekurangan", "deskripsi", "detail", "pros", "cons", "description", "about", "info"]

/-- The safeguard's own warranty-keyword set is smaller than the fallback
classifier's. -/
def safeguardKeywords : List String := ["garansi", "warranty"]

def prosKeywords : List String := ["kelebihan", "keunggulan", "pros", "advantage"]

def consKeywords : List String := ["kekurangan", "kelemahan", "cons", "disadvantage"]

def descKeywords : List String := ["deskripsi", "description", "detail", "tentang", "about"]

structure ActionSpec where
  action : String
  actionInput : String
deriving DecidableEq, Repr

/-- Model of `determine_fallback_action`: order id, then order keywords, then
warranty keywords with an extracted product, then product-info keywords
with an extracted product; a warranty keyword with no extracted product
falls through to the product-info rule, as in the source. -/
def determine_fallback_action (message : String) (p : Extracted) : Option ActionSpec :=
  match p.orderId with
  | some oid => some { action := "get_order_status", actionInput := oid }
  | none =>
      if containsAnyWordCI orderKeywords message then
        some { action := "get_order_status", actionInput := "" }
      else
        let warrantyPick : Option ActionSpec :=
          if containsAnyWordCI warrantyKeywords message then
            match p.productId with
            | some pid => some { action := "get_warranty_info", actionInput := pid }
            | none => p.productName.map (fun pn => { action := "get_warranty_info", actionInput := pn })
          else none
        match warrantyPick with
        | some a => some a
        | none =>
            if containsAnyWordCI productKeywords message then
              match p.productId with
              | some pid => some { action := "get_product_info", actionInput := pid }
              | none => p.productName.map (fun pn => { action := "get_product_info", actionInput := pn })
            else none

inductive SafeguardResult where
  | noAction
  | action (a : ActionSpec)
  | askProduct
deriving DecidableEq, Repr

/-- The history scan of `handle_warranty_safeguard`: the first message in
supplied order whose content matches case-sensitive `\bP\d+\b`. -/
def firstHistoryProductId : List HistMsg → Option String
  | [] => none
  | m :: rest =>
      match searchPIdWord none m.content.toList with
      | some pm => some (String.mk pm)
      | none => firstHistoryProductId rest

/-- Model of `handle_warranty_safeguard`: only for messages matching
garansi/warranty; explicit (case-sensitive) product id wins, then the
user's latest order's product, then the history scan, else `ask_product`. -/
def handle_warranty_safeguard (orders : List Order) (uid msg : String)
    (lastMessages : List HistMsg) : SafeguardResult :=
  let productMatch := searchPIdWord none msg.toList
  if !containsAnyWordCI safeguardKeywords msg then SafeguardResult.noAction
  else
    match productMatch with
    | some m => SafeguardResult.action { action := "get_warranty_info", actionInput := String.mk m }
    | none =>
        let fromOrder := (get_latest_order_for_user orders uid).map (fun o => o.productId)
        let chosen : Option String :=
          match fromOrder with
          | some pidStr => if pidStr == "" then firstHistoryProductId lastMessages else some pidStr
          | none => firstHistoryProductId lastMessages
        match chosen with
        | some pid =>
            if pid == "" then SafeguardResult.askProduct
            else SafeguardResult.action { action := "get_warranty_info", actionInput := pid }
        | none => SafeguardResult.askProduct

/-! ## Model-action parsing (try_parse_json_action) -/

/-- The parsed JSON object, modelled as a string-valued dictionary ordered
by key insertion; `json.loads` itself is an abstract parameter. -/
abbrev JsonDict := List (String × String)

/-- Python `dict.get`. -/
def dget (d : JsonDict) (k : String) : Option String :=
  (d.find? (fun kv => kv.1 == k)).map (fun kv => kv.2)

/-- Index of the first occurrence of `c`, model of `str.find` before its
`-1` encoding. -/
def firstIdx (c : Char) : List Char → Option Nat
  | [] => none
  | a :: as => if a == c then some 0 else (firstIdx c as).map (fun i => i + 1)

/-- Python `str.find`: first index or `-1`. -/
def strFindChar (s : List Char) (c : Char) : Int :=
  match firstIdx c s with
  | some i => (i : Int)
  | none => -1

/-- Python `str.rfind`: last index or `-1`. -/
def strRFindChar (s : List Char) (c : Char) : Int :=
  match firstIdx c s.reverse with
  | some i => ((s.length - 1 - i : Nat) : Int)
  | none => -1

/-- Model of `try_parse_json_action`: slice from the first `{` to the last `}` and
hand the slice to `json.loads` (the `parse` parameter, `none` modelling a
parse exception); any failure yields `none`. -/
def try_parse_json_action (parse : String → Option JsonDict) (text : String) : Option JsonDict :=
  let s := text.toList
  let start := strFindChar s '\x7b'
  let stop := strRFindChar s '\x7d'
  if start != -1 && stop != -1 && decide (start < stop) then
    parse (String.mk ((s.drop start.toNat).take (stop.toNat - start.toNat + 1)))
  else none

/-- Modelled from the spec: "locate one embedded structured action object
from the raw text (first `{` to last `}` span); malformed or absent → no
action".  The span exists only when both braces occur and the last `}`
comes strictly after the first `{`. -/
def specBraceSpan (text : String) : Option String :=
  let s := text.toList
  match firstIdx '\x7b' s, firstIdx '\x7d' s.reverse with
  | some i, some rj =>
      let j := s.length - 1 - rj
      if i < j then some (String.mk ((s.drop i).take (j - i + 1))) else none
  | _, _ => none

/-! ## The chat pipeline (POST /chat) -/

/-- The case-sensitive `(ORD\d+)` scan over history used by the
empty-order-id branch of `chat` (unlike `extract_patterns`, this one
passes no `re.I` flag). -/
def firstHistoryOrderId : List HistMsg → Option String
  | [] => none
  | m :: rest =>
      match searchId (fun a b => a == b) ['O', 'R', 'D'] m.content.toList with
      | some om => some (String.mk om)
      | none => firstHistoryOrderId rest

/-- The order-status reply template. -/
def orderReply (out : OrderStatusOut) : String :=
  if out.found then
    "Pesanan " ++ out.orderId.getD "" ++ " saat ini berstatus: " ++ out.status.getD "" ++ "." ++
      (match out.tracking with
       | some t => if t == "" then "" else " Tracking: " ++ t ++ "."
       | none => "")
  else "Anda tidak memiliki pesanan dengan nomor tersebut."

/-- The warranty reply template. -/
def warrantyReply (w : WarrantyOut) : String :=
  "Anda dapat mengklaim garansi dengan mengirim email ke warranty@company.com. " ++
  "Pastikan klaim Anda sesuai dengan detail garansi produk. " ++
  "Detailnya adalah sebagai berikut.\n\n" ++
  "Produk " ++ w.product ++ " memiliki garansi selama " ++ toString w.durationMonths ++
  " bulan. Ketentuan: " ++ w.terms

/-- The product-info reply template: the pros, cons or description branch
is selected by keywords of the lowercased user message, else the full
card. -/
def productReply (userMessage : String) (p : ProductOut) : String :=
  let ml := pyLower userMessage
  if containsAnyWordCI prosKeywords ml then "Kelebihan " ++ p.name ++ ": " ++ p.pros
  else if containsAnyWordCI consKeywords ml then "Kekurangan " ++ p.name ++ ": " ++ p.cons
  else if containsAnyWordCI descKeywords ml then "Deskripsi " ++ p.name ++ ": " ++ p.description
  else
    "Produk " ++ p.name ++ " (ID: " ++ p.id ++ ").\n" ++
    "Deskripsi: " ++ p.description ++ "\n" ++
    "Kelebihan: " ++ p.pros ++ "\n" ++
    "Kekurangan: " ++ p.cons

inductive ToolOutput where
  | orderOut (o : OrderStatusOut)
  | warrantyOut (w : WarrantyOut)
  | productOut (p : ProductOut)
  | errorUnsupported
deriving DecidableEq, Repr

/-- The `{"found": False, "order_id": None}` dictionary of the
no-latest-order branch. -/
def noLatestOrderOut : OrderStatusOut :=
  { found := false, orderId := none, status := none, tracking := none
    userId := none, productId := none, productName := none }

def dumpOptStr : Option String → String
  | none => "null"
  | some s => "\"" ++ s ++ "\""

/-- Rendering of the tool output persisted by `json.dumps` (field layout
as produced by the corresponding Python dictionaries). -/
def dumpToolOutput : Option ToolOutput → String
  | none => "null"
  | some (ToolOutput.orderOut o) =>
      if o.found then
        "\x7b\"found\": true, \"order_id\": " ++ dumpOptStr o.orderId ++
        ", \"status\": " ++ dumpOptStr o.status ++
        ", \"tracking\": " ++ dumpOptStr o.tracking ++
        ", \"user_id\": " ++ dumpOptStr o.userId ++
        ", \"product_id\": " ++ dumpOptStr o.productId ++
        ", \"product_name\": " ++ dumpOptStr o.productName ++ "\x7d"
      else "\x7b\"found\": false, \"order_id\": " ++ dumpOptStr o.orderId ++ "\x7d"
  | some (ToolOutput.warrantyOut w) =>
      "\x7b\"product\": \"" ++ w.product ++ "\", \"product_id\": \"" ++ w.productId ++
      "\", \"duration_months\": " ++ toString w.durationMonths ++
      ", \"terms\": \"" ++ w.terms ++ "\"\x7d"
  | some (ToolOutput.productOut p) =>
      "\x7b\"id\": \"" ++ p.id ++ "\", \"name\": \"" ++ p.name ++
      "\", \"description\": \"" ++ p.description ++
      "\", \"pros\": \"" ++ p.pros ++ "\", \"cons\": \"" ++ p.cons ++ "\"\x7d"
  | some ToolOutput.errorUnsupported => "\x7b\"error\": \"unsupported_tool\"\x7d"

/-- The persisted tool turn `json.dumps({"tool": action, "output": ...})`. -/
def toolMessage (action : String) (out : Option ToolOutput) : String :=
  "\x7b\"tool\": \"" ++ action ++ "\", \"output\": " ++ dumpToolOutput out ++ "\x7d"

/-- The tool-execution block of `chat`: run the selected action and build
the deterministic reply. -/
def run_tool (st : Store) (uid userMessage : String) (lastMessages : List HistMsg)
    (action actionInput : String) : Option ToolOutput × String :=
  if action == "get_order_status" then
    let orderId := pyStrip actionInput
    let out : OrderStatusOut :=
      if orderId == "" then
        match firstHistoryOrderId lastMessages with
        | some oid => get_user_order_status st.orders st.products uid oid
        | none =>
            match get_latest_order_for_user st.orders uid with
            | some o => orderFoundOut st.products o
            | none => noLatestOrderOut
      else get_user_order_status st.orders st.products uid orderId
    (some (ToolOutput.orderOut out), orderReply out)
  else if action == "get_warranty_info" then
    match get_warranty_info st.products st.warranties actionInput with
    | some w => (some (ToolOutput.warrantyOut w), warrantyReply w)
    | none =>
        (none, "Maaf — saya tidak dapat menemukan informasi garansi untuk produk " ++ actionInput ++ ".")
  else if action == "get_product_info" then
    match get_product_info st.products actionInput with
    | some p => (some (ToolOutput.productOut p), productReply userMessage p)
    | none =>
        (none, "Maaf — saya tidak dapat menemukan informasi produk untuk " ++ actionInput ++ ".")
  else (some ToolOutput.errorUnsupported, "Tool '" ++ action ++ "' yang diminta tidak didukung.")

structure ChatResult where
  store : Store
  cache : CacheState
  reply : String
  toolCalled : Option String
  toolOutput : Option ToolOutput
deriving DecidableEq, Repr

/-- The dictionary form `{"action": ..., "action_input": ...}` that the
safeguard and the fallback classifier contribute as `action_json`. -/
def actionToDict (a : ActionSpec) : JsonDict :=
  [("action", a.action), ("action_input", a.actionInput)]

def askProductReply : String := "Produk mana yang ingin Anda ketahui informasi garansinya?"

/-- The `/chat` handler.  The language-model call is abstracted by the raw
text `llmText` it returned (the handler fails upstream of everything
modelled here if that call raises) together with the abstract `json.loads`
parameter `parse`. -/
def chat (st : Store) (cache : CacheState) (now : Nat) (uid rawMessage llmText : String)
    (parse : String → Option JsonDict) : ChatResult :=
  let userMessage := pyStrip rawMessage
  let st1 := persist_message st uid "user" userMessage
  let lastMessages := get_last_n_messages st1 uid 3
  let actionJson0 := try_parse_json_action parse llmText
  match handle_warranty_safeguard st1.orders uid userMessage lastMessages with
  | SafeguardResult.askProduct =>
      { store := persist_message st1 uid "assistant" askProductReply
        cache := cache
        reply := askProductReply
        toolCalled := none
        toolOutput := none }
  | wr =>
      let actionJson1 :=
        match wr with
        | SafeguardResult.action a => some (actionToDict a)
        | _ => actionJson0
      let needFallback :=
        match actionJson1 with
        | none => true
        | some d => d.isEmpty || dget d "action" == some "none"
      let fb :=
        if needFallback then
          let (pats, cache2) := extract_patterns cache now st1.products userMessage
          ((determine_fallback_action userMessage pats).map actionToDict, cache2)
        else (actionJson1, cache)
      let execA : Option (String × String) :=
        match fb.1 with
        | none => none
        | some d =>
            if d.isEmpty then none
            else
              match dget d "action" with
              | none => none
              | some a =>
                  if a == "" || a == "none" then none
                  else some (a, (dget d "action_input").getD "")
      match execA with
      | none =>
          { store := persist_message st1 uid "assistant" llmText
            cache := fb.2
            reply := llmText
            toolCalled := none
            toolOutput := none }
      | some pr =>
          let outRep := run_tool st1 uid userMessage lastMessages pr.1 pr.2
          let st2 := persist_message st1 uid "tool" (toolMessage pr.1 outRep.1)
          { store := persist_message st2 uid "assistant" outRep.2
            cache := fb.2
            reply := outRep.2
            toolCalled := some pr.1
            toolOutput := outRep.1 }

/-! ## Seeding and administrative endpoints (src/db_seed.py, src/main.py) -/

def seedWarranties : List Warranty :=
  [{ id := 1, durationMonths := 24, terms := "Hanya mencakup cacat produksi." },
   { id := 2, durationMonths := 12, terms := "Termasuk perlindungan kerusakan tidak disengaja." }]

def seedProducts : List Product :=
  [{ id := "P123", name := "Headphone Wireless"
     description := "Headphone wireless berkualitas tinggi dengan noise cancellation."
     pros := "Kualitas suara yang bagus; Nyaman dipakai; Baterai tahan lama"
     cons := "Harga mahal; Case yang besar", warrantyId := some 1 },
   { id := "P234", name := "Smartphone X"
     description := "Smartphone generasi terbaru dengan layar OLED dan sistem triple camera."
     pros := "Kamera sangat bagus; Performa cepat; Desain premium"
     cons := "Harga tinggi; Tidak ada jack headphone", warrantyId := some 2 },
   { id := "P345", name := "Gaming Laptop Pro"
     description := "Laptop gaming yang powerful dengan grafis RTX dan layar high refresh."
     pros := "GPU tingkat atas; SSD cepat; Sistem pendingin yang baik"
     cons := "Berat; Baterai cepat habis", warrantyId := some 1 }]

def seedOrders : List Order :=
  [{ orderId := "ORD12345", userId := "user1", status := "Shipped"
     tracking := some "TRACK123", createdAt := 0, productId := "P123" },
   { orderId := "ORD23456", userId := "user2", status := "Processing"
     tracking := none, createdAt := 1, productId := "P234" },
   { orderId := "ORD34567", userId := "user1", status := "Delivered"
     tracking := some "TRACK789", createdAt := 2, productId := "P345" }]

/-- Model of `seed_database`: idempotent — seeds only when no order exists. -/
def seed_database (st : Store) : Store :=
  if st.orders.isEmpty then
    { st with
        warranties := st.warranties ++ seedWarranties
        products := st.products ++ seedProducts
        orders := st.orders ++ seedOrders }
  else st

/-- Model of `DELETE /database/clear`: empty every table and invalidate the cache. -/
def clear_database (st : Store) (_cache : CacheState) : Store × CacheState :=
  ({ st with messages := [], orders := [], products := [], warranties := [] }, invalidatedCache)

/-- Model of `POST /database/seed`: seed and invalidate the cache. -/
def seed_database_endpoint (st : Store) (_cache : CacheState) : Store × CacheState :=
  (seed_database st, invalidatedCache)

/-- Model of `POST /database/reset`: clear, reseed and invalidate the cache. -/
def reset_database (st : Store) (_cache : CacheState) : Store × CacheState :=
  (seed_database { st with messages := [], orders := [], products := [], warranties := [] },
   invalidatedCache)

structure StatusOut where
  messages : Nat
  orders : Nat
  products : Nat
  warranties : Nat
  patternsCached : Bool
  cacheAgeSeconds : Option Int
deriving DecidableEq, Repr

/-- Model of `GET /database/status`: report table counts and cache status; the
handler reads the cache globals and performs no assignment to them, so the
store and cache pass through unchanged. -/
def database_status (st : Store) (cache : CacheState) (now : Nat) :
    StatusOut × Store × CacheState :=
  ({ messages := st.messages.length
     orders := st.orders.length
     products := st.products.length
     warranties := st.warranties.length
     patternsCached := cache.patterns.isSome
     cacheAgeSeconds :=
       cache.timestamp.bind (fun ts => if ts == 0 then none else some ((now : Int) - (ts : Int))) },
   st, cache)

/-! ## Basic lemmas about the store operations -/

@[simp]
lemma persist_message_orders (st : Store) (uid role content : String) :
    (persist_message st uid role content).orders = st.orders := rfl

@[simp]
lemma persist_message_products (st : Store) (uid role content : String) :
    (persist_message st uid role content).products = st.products := rfl

@[simp]
lemma persist_message_warranties (st : Store) (uid role content : String) :
    (persist_message st uid role content).warranties = st.warranties := rfl

@[simp]
lemma persist_message_messages (st : Store) (uid role content : String) :
    (persist_message st uid role content).messages =
      st.messages ++ [{ userId := uid, role := role, content := content, createdAt := st.nextTime }] := rfl

@[simp]
lemma persist_message_nextTime (st : Store) (uid role content : String) :
    (persist_message st uid role content).nextTime = st.nextTime + 1 := rfl

lemma mem_insertLe {α : Type} (le : α → α → Bool) (a b : α) (l : List α) :
    a ∈ insertLe le b l ↔ a = b ∨ a ∈ l := by
  induction l with
  | nil => simp [insertLe]
  | cons c cs ih =>
      by_cases h : le b c = true
      · simp [insertLe, h]
      · simp only [insertLe, h]
        simp only [Bool.false_eq_true, if_false, List.mem_cons, ih]
        tauto

lemma mem_sortLe {α : Type} (le : α → α → Bool) (a : α) (l : List α) :
    a ∈ sortLe le l ↔ a ∈ l := by
  induction l with
  | nil => simp [sortLe]
  | cons c cs ih => simp [sortLe, mem_insertLe, ih]

/-- Every history entry handed to the safeguard comes from a stored message
of the same user. -/
lemma mem_get_last_n_messages (st : Store) (uid : String) (n : Nat) (h : HistMsg)
    (hm : h ∈ get_last_n_messages st uid n) :
    ∃ m ∈ st.messages, m.userId = uid ∧ h.content = m.content := by
  unfold get_last_n_messages at hm
  rcases List.mem_map.1 hm with ⟨m, hmem, rfl⟩
  have hmem2 := List.take_subset _ _ hmem
  have hmem3 := (mem_sortLe _ _ _).1 hmem2
  rcases List.mem_filter.1 hmem3 with ⟨hmem4, huid⟩
  exact ⟨m, hmem4, by simpa using huid, rfl⟩

/-! ## C4 — fallback classifier: extracted order id always wins -/

/-- C4: for every message whose extracted entities contain an order
reference, the fallback classifier returns `get_order_status` with exactly
that extracted reference, regardless of other keywords in the message. -/
theorem claim4 (cache : CacheState) (now : Nat) (catalog : List Product) (msg oid : String)
    (h : ((extract_patterns cache now catalog msg).1).orderId = some oid) :
    determine_fallback_action msg (extract_patterns cache now catalog msg).1 =
      some { action := "get_order_status", actionInput := oid } := by
  unfold determine_fallback_action
  rw [h]

/-- Witness for C4 on a message that also contains warranty and
product-info keywords. -/
theorem claim4_witness :
    ((extract_patterns invalidatedCache 0 [] "garansi dan kelebihan ORD12345 ?").1).orderId = some "ORD12345" ∧
    determine_fallback_action "garansi dan kelebihan ORD12345 ?"
        (extract_patterns invalidatedCache 0 [] "garansi dan kelebihan ORD12345 ?").1 =
      some { action := "get_order_status", actionInput := "ORD12345" } :=
  ⟨by decide, claim4 invalidatedCache 0 [] "garansi dan kelebihan ORD12345 ?" "ORD12345" (by decide)⟩

/-! ## C10 — identifiers starting with 'P' never use the name search -/

/-- C10: an identifier that starts with `'P'` but equals no product id
makes both `get_product_info` and `get_warranty_info` return `none`; the
name search is never attempted for such identifiers, even when a product
name contains the identifier. -/
theorem claim10 (products : List Product) (warranties : List Warranty) (ident : String)
    (hP : startsWithP ident = true)
    (hNo : ∀ p ∈ products, p.id ≠ ident) :
    get_product_info products ident = none ∧ get_warranty_info products warranties ident = none := by
  have hf : products.find? (fun p => p.id == ident) = none :=
    List.find?_eq_none.mpr (by intro x hx; simpa using hNo x hx)
  have hsel : findProductByIdentifier products ident = none := by
    unfold findProductByIdentifier
    rw [hf, hP]
    simp
  exact ⟨by unfold get_product_info; rw [hsel]; rfl,
         by unfold get_warranty_info; rw [hsel]⟩

/-- Witness for C10: `"P9"` is contained in the product's name, yet both
lookups return `none` because the name search is skipped. -/
theorem claim10_witness :
    startsWithP "P9" = true ∧
    containsSubCI "P9".toList "The P9 Phone".toList = true ∧
    get_product_info [{ id := "P123", name := "The P9 Phone", description := "d", pros := "p", cons := "c", warrantyId := some 1 }] "P9" = none ∧
    get_warranty_info [{ id := "P123", name := "The P9 Phone", description := "d", pros := "p", cons := "c", warrantyId := some 1 }] seedWarranties "P9" = none := by
  refine ⟨by decide, by decide, ?_⟩
  have := claim10
    [{ id := "P123", name := "The P9 Phone", description := "d", pros := "p", cons := "c", warrantyId := some 1 }]
    seedWarranties "P9" (by decide) (by decide)
  exact this

/-! ## C2 — shared significant words resolve to the last product, not the first -/

/-- C2 counterexample: `"Gaming Mouse"` and `"Gaming Keyboard"` share the
significant word `"gaming"`, the catalog iterates `"Gaming Mouse"` first,
yet the message `"gaming"` resolves to `"Gaming Keyboard"`. -/
theorem claim2_counterexample :
    (['g', 'a', 'm', 'i', 'n', 'g'] ∈ significantWords "Gaming Mouse" ∧
     ['g', 'a', 'm', 'i', 'n', 'g'] ∈ significantWords "Gaming Keyboard") ∧
    ((extract_patterns invalidatedCache 0
        [{ id := "P1", name := "Gaming Mouse", description := "", pros := "", cons := "", warrantyId := none },
         { id := "P2", name := "Gaming Keyboard", description := "", pros := "", cons := "", warrantyId := none }]
        "gaming").1).matchedProduct ≠ some "Gaming Mouse" := by decide

/- Lemmas for the general C2 statement.  The pattern texts and the
significant words are lowercase by construction (`name.lower()`), which
rests on `Char.toLower` being idempotent. -/

lemma char_toNat_ofNat (n : Nat) (h : n.isValidChar) : (Char.ofNat n).toNat = n := by
  rw [Char.ofNat, dif_pos h]
  rfl

lemma toLower_eq_of (c : Char) (h : c.toNat ≥ 65 ∧ c.toNat ≤ 90) :
    c.toLower = Char.ofNat (c.toNat + 32) := by
  simp only [Char.toLower]
  rw [if_pos h]

lemma toLower_eq_self_of (c : Char) (h : ¬(c.toNat ≥ 65 ∧ c.toNat ≤ 90)) : c.toLower = c := by
  simp only [Char.toLower]
  rw [if_neg h]

lemma toLower_toLower (c : Char) : c.toLower.toLower = c.toLower := by
  by_cases h : c.toNat ≥ 65 ∧ c.toNat ≤ 90
  · rw [toLower_eq_of c h]
    apply toLower_eq_self_of
    rw [char_toNat_ofNat (c.toNat + 32) (Or.inl (by omega))]
    omega
  · rw [toLower_eq_self_of c h, toLower_eq_self_of c h]

/-- Every character of a `pyLower` output is fixed by `toLower`. -/
lemma pyLower_chars (name : String) : ∀ c ∈ (pyLower name).toList, c.toLower = c := by
  intro c hc
  have hc2 : c ∈ name.toList.map Char.toLower := hc
  rcases List.mem_map.1 hc2 with ⟨x, _, rfl⟩
  exact toLower_toLower x

/-- Characters of the pieces of `splitWS` come from the split text. -/
lemma splitWS_subset : ∀ (s piece : List Char), piece ∈ splitWS s → ∀ c ∈ piece, c ∈ s
  | [], piece, h => by simp [splitWS] at h
  | a :: as, piece, h => by
      intro c hc
      by_cases hws : a.isWhitespace = true
      · rw [splitWS, if_pos hws] at h
        exact List.mem_cons_of_mem a (splitWS_subset as piece h c hc)
      · rw [Bool.not_eq_true] at hws
        cases hsp : splitWS as with
        | nil =>
            rw [splitWS, if_neg (by rw [hws]; simp), hsp] at h
            have hp : piece = [a] := by simpa using h
            rw [hp] at hc
            have : c = a := by simpa using hc
            rw [this]
            exact List.mem_cons_self a as
        | cons w ws =>
            cases as with
            | nil => simp [splitWS] at hsp
            | cons d ds =>
                have key : splitWS (a :: d :: ds) =
                    if d.isWhitespace = true then [a] :: w :: ws else (a :: w) :: ws := by
                  rw [splitWS, if_neg (by rw [hws]; simp), hsp]
                rw [key] at h
                by_cases hd : d.isWhitespace = true
                · rw [if_pos hd] at h
                  rcases List.mem_cons.mp h with rfl | h2
                  · have : c = a := by simpa using hc
                    rw [this]
                    exact List.mem_cons_self a (d :: ds)
                  · have hmem : piece ∈ splitWS (d :: ds) := by rw [hsp]; exact h2
                    exact List.mem_cons_of_mem a (splitWS_subset (d :: ds) piece hmem c hc)
                · rw [if_neg hd] at h
                  rcases List.mem_cons.mp h with rfl | h2
                  · rcases List.mem_cons.mp hc with rfl | hc2
                    · exact List.mem_cons_self c (d :: ds)
                    · have hw : w ∈ splitWS (d :: ds) := by rw [hsp]; exact List.mem_cons_self w ws
                      exact List.mem_cons_of_mem a (splitWS_subset (d :: ds) w hw c hc2)
                  · have hmem : piece ∈ splitWS (d :: ds) := by
                      rw [hsp]; exact List.mem_cons_of_mem w h2
                    exact List.mem_cons_of_mem a (splitWS_subset (d :: ds) piece hmem c hc)

/-- Every character of a significant word is fixed by `toLower`. -/
lemma significantWords_chars (name : String) :
    ∀ q ∈ significantWords name, ∀ c ∈ q, c.toLower = c := by
  intro q hq c hc
  have hq2 : q ∈ splitWS (pyLower name).toList := (List.mem_filter.mp hq).1
  exact pyLower_chars name c (splitWS_subset _ q hq2 c hc)

/-- Significant words are longer than three characters, hence nonempty. -/
lemma significantWords_ne_nil (name : String) (q : List Char)
    (hq : q ∈ significantWords name) : q ≠ [] := by
  have h := (List.mem_filter.mp hq).2
  intro he
  rw [he] at h
  simp at h

/-- Every pattern contributed by a product is fixed by `toLower`
characterwise. -/
lemma productPatternEntries_chars (p : Product) :
    ∀ q ∈ productPatternEntries p, ∀ c ∈ q, c.toLower = c := by
  intro q hq
  rcases List.mem_cons.mp hq with rfl | hq2
  · exact pyLower_chars p.name
  · exact significantWords_chars p.name q hq2

lemma matchLit_lowerEq_self : ∀ q : List Char, matchLit lowerEq q q = some q
  | [] => rfl
  | c :: cs => by
      have hc : lowerEq c c = true := by simp [lowerEq]
      simp [matchLit, hc, matchLit_lowerEq_self cs]

/-- A successful literal match consumes exactly the pattern-length prefix. -/
lemma matchLit_eq_take (eqc : Char → Char → Bool) :
    ∀ (p s m : List Char), matchLit eqc p s = some m → m = s.take p.length ∧ p.length ≤ s.length
  | [], s, m, h => by
      simp only [matchLit, Option.some.injEq] at h
      exact ⟨h ▸ rfl, Nat.zero_le _⟩
  | p :: ps, [], m, h => by simp [matchLit] at h
  | p :: ps, c :: cs, m, h => by
      by_cases he : eqc p c = true
      · simp only [matchLit, he, if_true, Option.map_eq_some'] at h
        rcases h with ⟨m', hm', rfl⟩
        rcases matchLit_eq_take eqc ps cs m' hm' with ⟨h1, h2⟩
        refine ⟨?_, by simpa using Nat.succ_le_succ h2⟩
        rw [List.length_cons, List.take_succ_cons, h1]
      · simp [matchLit, he] at h

/-- Over `toLower`-fixed texts, a full-length case-insensitive match is an
equality. -/
lemma matchLit_eq_of_lower :
    ∀ (p s m : List Char), (∀ c ∈ p, c.toLower = c) → (∀ c ∈ s, c.toLower = c) →
      s.length ≤ p.length → matchLit lowerEq p s = some m → p = s
  | [], s, _, _, _, hlen, _ => by
      cases s with
      | nil => rfl
      | cons c cs => simp at hlen
  | p :: ps, [], m, _, _, _, h => by simp [matchLit] at h
  | p :: ps, c :: cs, m, hp, hs, hlen, h => by
      by_cases he : lowerEq p c = true
      · have hpc : p = c := by
          have h1 : (p.toLower == c.toLower) = true := he
          have h2 := beq_iff_eq.mp h1
          rw [hp p (List.mem_cons_self p ps), hs c (List.mem_cons_self c cs)] at h2
          exact h2
        subst hpc
        simp only [matchLit, he, if_true, Option.map_eq_some'] at h
        rcases h with ⟨m', hm', _⟩
        have hrec := matchLit_eq_of_lower ps cs m'
          (fun x hx => hp x (List.mem_cons_of_mem _ hx))
          (fun x hx => hs x (List.mem_cons_of_mem _ hx))
          (by simpa using hlen) hm'
        rw [hrec]
      · simp [matchLit, he] at h

/-- Past position zero of an all-word-character text there is no word
boundary, so the scan finds nothing. -/
lemma searchFrom_none_of_word (pat : List Char) :
    ∀ (s : List Char) (p : Char), isWordChar p = true → (∀ c ∈ s, isWordChar c = true) →
      searchWordCIFrom pat (some p) s = none
  | [], _, _, _ => rfl
  | c :: cs, p, hp, hs => by
      have hb : boundaryOk (some p) = false := by simp [boundaryOk, hp]
      simp [searchWordCIFrom, hb,
        searchFrom_none_of_word pat cs c (hs c (List.mem_cons_self c cs))
          (fun x hx => hs x (List.mem_cons_of_mem _ hx))]

lemma afterOk_eq_true_iff (s : List Char) (h : ∀ c ∈ s, isWordChar c = true) :
    afterOk s = true ↔ s = [] := by
  cases s with
  | nil => simp [afterOk]
  | cons c cs => simp [afterOk, h c (List.mem_cons_self c cs)]

/-- A word matches itself. -/
lemma searchWordCI_self (q : List Char) (h : q ≠ []) : searchWordCI q q = some q := by
  cases q with
  | nil => exact absurd rfl h
  | cons c cs =>
      show searchWordCIFrom (c :: cs) none (c :: cs) = some (c :: cs)
      simp [searchWordCIFrom, boundaryOk, matchLit_lowerEq_self, List.drop_length, afterOk]

/-- On a message that is a single `toLower`-fixed word, the only pattern
(itself `toLower`-fixed) that can match is the word itself. -/
lemma searchWordCI_eq_of_all_word (q w m : List Char)
    (hq : ∀ c ∈ q, c.toLower = c) (hw : ∀ c ∈ w, c.toLower = c)
    (hWord : ∀ c ∈ w, isWordChar c = true)
    (h : searchWordCI q w = some m) : q = w := by
  cases w with
  | nil => simp [searchWordCI, searchWordCIFrom] at h
  | cons w0 ws =>
      have hrest : searchWordCIFrom q (some w0) ws = none :=
        searchFrom_none_of_word q ws w0 (hWord w0 (List.mem_cons_self w0 ws))
          (fun x hx => hWord x (List.mem_cons_of_mem _ hx))
      cases hm : matchLit lowerEq q (w0 :: ws) with
      | none =>
          unfold searchWordCI at h
          simp [searchWordCIFrom, boundaryOk, hm, hrest] at h
      | some m' =>
          rcases matchLit_eq_take lowerEq q (w0 :: ws) m' hm with ⟨hm', hlen⟩
          have hml : m'.length = q.length := by
            rw [hm', List.length_take]
            omega
          cases haf : afterOk ((w0 :: ws).drop m'.length) with
          | false =>
              unfold searchWordCI at h
              simp [searchWordCIFrom, boundaryOk, hm, haf, hrest] at h
          | true =>
              have hdrop : (w0 :: ws).drop m'.length = [] := by
                refine (afterOk_eq_true_iff _ ?_).mp haf
                exact fun c hc => hWord c (List.drop_subset _ _ hc)
              have hlen2 : (w0 :: ws).length ≤ q.length := by
                rw [← hml]
                exact List.drop_eq_nil_iff.mp hdrop
              exact matchLit_eq_of_lower q (w0 :: ws) m' hq hw hlen2 hm

/-- A result of the first-match loop is a pattern of the list together
with its match. -/
lemma firstPatternMatch_mem :
    ∀ (pats : PatternList) (s q m : List Char), firstPatternMatch pats s = some (q, m) →
      q ∈ pats ∧ searchWordCI q s = some m
  | [], s, q, m, h => by simp [firstPatternMatch] at h
  | p :: ps, s, q, m, h => by
      cases hp : searchWordCI p s with
      | some m2 =>
          simp only [firstPatternMatch, hp, Option.some.injEq, Prod.mk.injEq] at h
          rcases h with ⟨rfl, rfl⟩
          exact ⟨List.mem_cons_self p ps, hp⟩
      | none =>
          simp only [firstPatternMatch, hp] at h
          rcases firstPatternMatch_mem ps s q m h with ⟨h1, h2⟩
          exact ⟨List.mem_cons_of_mem _ h1, h2⟩

/-- If some pattern of the list matches, the loop returns a match. -/
lemma firstPatternMatch_isSome :
    ∀ (pats : PatternList) (s : List Char), (∃ p ∈ pats, (searchWordCI p s).isSome) →
      (firstPatternMatch pats s).isSome
  | [], _, h => by rcases h with ⟨p, hp, _⟩; exact absurd hp (List.not_mem_nil p)
  | p :: ps, s, h => by
      cases hp : searchWordCI p s with
      | some m2 => simp [firstPatternMatch, hp]
      | none =>
          simp only [firstPatternMatch, hp]
          rcases h with ⟨p2, hp2, hsome⟩
          rcases List.mem_cons.mp hp2 with rfl | hmem
          · rw [hp] at hsome
            simp at hsome
          · exact firstPatternMatch_isSome ps s ⟨p2, hmem, hsome⟩

/-- Python-dict lookup through an append: the later bindings win. -/
lemma dictGet_append (k : List Char) :
    ∀ l1 l2 : PatternMap, dictGet k (l1 ++ l2) =
      (match dictGet k l2 with
       | some v => some v
       | none => dictGet k l1)
  | [], l2 => by cases h : dictGet k l2 <;> simp [dictGet, h]
  | (k2, v) :: l1, l2 => by
      simp only [List.cons_append, dictGet, List.append_eq]
      rw [dictGet_append k l1 l2]
      cases h2 : dictGet k l2 with
      | some v2 => rfl
      | none => rfl

/-- A constant-valued dict fragment only ever yields its value. -/
lemma dictGet_map_values (k : List Char) (v : String) :
    ∀ es : List (List Char), dictGet k (es.map (fun e => (e, v))) = none ∨
      dictGet k (es.map (fun e => (e, v))) = some v
  | [] => Or.inl rfl
  | e :: es => by
      simp only [List.map_cons, dictGet]
      rcases dictGet_map_values k v es with h | h <;> rw [h]
      · by_cases hk : (k == e) = true
        · right; rw [if_pos hk]
        · left; rw [if_neg hk]
      · right; rfl

/-- A key present in a constant-valued dict fragment yields the value. -/
lemma dictGet_map_of_mem (k : List Char) (v : String) :
    ∀ es : List (List Char), k ∈ es → dictGet k (es.map (fun e => (e, v))) = some v
  | [], h => absurd h (List.not_mem_nil k)
  | e :: es, h => by
      simp only [List.map_cons, dictGet]
      rcases List.mem_cons.mp h with rfl | hmem
      · rcases dictGet_map_values k v es with h2 | h2
        · rw [h2]
          simp
        · rw [h2]
      · rw [dictGet_map_of_mem k v es hmem]

/-- C2 amended: whenever two products share a significant word (a word of
letters, digits or underscores), a message containing only that word
resolves to the product that was inserted (iterated) LAST: the
pattern-to-name mapping is a Python dict keyed by pattern text, so the
later product's assignment overwrites the earlier one's for the shared
word, even though the matching pattern itself is found first-match in
catalog iteration order. -/
theorem claim2 (a b : Product) (w : List Char)
    (hA : w ∈ significantWords a.name)
    (hB : w ∈ significantWords b.name)
    (hWord : ∀ c ∈ w, isWordChar c = true) :
    ((extract_patterns invalidatedCache 0 [a, b] (String.mk w)).1).matchedProduct = some b.name := by
  have hw_lower : ∀ c ∈ w, c.toLower = c := significantWords_chars a.name w hA
  have hw_ne : w ≠ [] := significantWords_ne_nil a.name w hA
  have hENTa : w ∈ productPatternEntries a := List.mem_cons_of_mem _ hA
  have hENTb : w ∈ productPatternEntries b := List.mem_cons_of_mem _ hB
  have hpp1 : (productPatterns [a, b]).1 = productPatternEntries a ++ productPatternEntries b := by
    simp [productPatterns]
  have hpp2 : (productPatterns [a, b]).2 =
      (productPatternEntries a).map (fun e => (e, a.name)) ++
        (productPatternEntries b).map (fun e => (e, b.name)) := by
    simp [productPatterns]
  have hsome : (firstPatternMatch (productPatterns [a, b]).1 w).isSome := by
    apply firstPatternMatch_isSome
    refine ⟨w, ?_, ?_⟩
    · rw [hpp1]
      exact List.mem_append.2 (Or.inl hENTa)
    · rw [searchWordCI_self w hw_ne]
      rfl
  rcases Option.isSome_iff_exists.mp hsome with ⟨⟨q, m⟩, hfm⟩
  rcases firstPatternMatch_mem _ _ _ _ hfm with ⟨hqmem, hqs⟩
  have hq_lower : ∀ c ∈ q, c.toLower = c := by
    rw [hpp1] at hqmem
    rcases List.mem_append.mp hqmem with h1 | h1
    · exact productPatternEntries_chars a q h1
    · exact productPatternEntries_chars b q h1
  have hqw : q = w := searchWordCI_eq_of_all_word q w m hq_lower hw_lower hWord hqs
  have hfm2 : firstPatternMatch (productPatterns [a, b]).1 (String.mk w).toList = some (q, m) := hfm
  show (extractFromPatterns (productPatterns [a, b]) (String.mk w)).matchedProduct = some b.name
  simp only [extractFromPatterns]
  rw [hfm2]
  show dictGet q (productPatterns [a, b]).2 = some b.name
  rw [hqw, hpp2, dictGet_append, dictGet_map_of_mem w b.name (productPatternEntries b) hENTb]

/-- The two-product catalog of the C2 witness. -/
def gamingMouse : Product :=
  { id := "P1", name := "Gaming Mouse", description := "", pros := "", cons := "", warrantyId := none }

/-- The second (later-inserted) product of the C2 witness. -/
def gamingKeyboard : Product :=
  { id := "P2", name := "Gaming Keyboard", description := "", pros := "", cons := "", warrantyId := none }

/-- Witness for C2: "gaming" is a significant word of both products and
the message "gaming" resolves to the later product. -/
theorem claim2_witness :
    (['g', 'a', 'm', 'i', 'n', 'g'] ∈ significantWords gamingMouse.name ∧
     ['g', 'a', 'm', 'i', 'n', 'g'] ∈ significantWords gamingKeyboard.name ∧
     (∀ c ∈ ['g', 'a', 'm', 'i', 'n', 'g'], isWordChar c = true)) ∧
    ((extract_patterns invalidatedCache 0 [gamingMouse, gamingKeyboard]
        (String.mk ['g', 'a', 'm', 'i', 'n', 'g'])).1).matchedProduct =
      some gamingKeyboard.name :=
  ⟨⟨by decide, by decide, by decide⟩,
   claim2 gamingMouse gamingKeyboard ['g', 'a', 'm', 'i', 'n', 'g']
     (by decide) (by decide) (by decide)⟩

/-! ## C3 — which administrative endpoints invalidate the pattern cache -/

/-- C3 counterexample: `GET /database/status` leaves a populated cache
untouched instead of resetting the cached pattern list and timestamp. -/
theorem claim3_counterexample :
    (database_status { messages := [], orders := [], products := [], warranties := [], nextTime := 0 }
        { patterns := some ([], []), timestamp := some 5 } 10).2.2 =
      { patterns := some ([], []), timestamp := some 5 } ∧
    ({ patterns := some ([], []), timestamp := some 5 } : CacheState) ≠ invalidatedCache := by decide

/-- C3 amended: `DELETE /database/clear`, `POST /database/seed` and
`POST /database/reset` each invalidate the pattern cache; `GET
/database/status` only reports on the cache and passes it through
unchanged. -/
theorem claim3 :
    ∀ (st : Store) (cache : CacheState) (now : Nat),
    (clear_database st cache).2 = invalidatedCache ∧
    (seed_database_endpoint st cache).2 = invalidatedCache ∧
    (reset_database st cache).2 = invalidatedCache ∧
    (database_status st cache now).2.2 = cache :=
  fun _ _ _ => ⟨rfl, rfl, rfl, rfl⟩

/-! ## C7 — the "apa kelebihan headphone" scenario -/

/-- C7 counterexample: the fallback classifier passes the matched
name fragment `"headphone"` as the action input, not the canonical
product name `"Headphone Wireless"` that the pattern cache resolved
(`matched_product` is computed but unused). -/
theorem claim7_counterexample :
    determine_fallback_action "apa kelebihan headphone"
        (extract_patterns invalidatedCache 0 seedProducts "apa kelebihan headphone").1 =
      some { action := "get_product_info", actionInput := "headphone" } ∧
    ((extract_patterns invalidatedCache 0 seedProducts "apa kelebihan headphone").1).matchedProduct =
      some "Headphone Wireless" ∧
    ("headphone" : String) ≠ "Headphone Wireless" := by decide

/-- C7 amended: for `"apa kelebihan headphone"` with no usable model
action, the pattern cache resolves `"headphone"` to the canonical product
`"Headphone Wireless"`, the fallback classifier selects
`get_product_info` with the matched fragment `"headphone"` (which the
product lookup then resolves by case-insensitive name search to the same
canonical product), and the reply is built from the "pros" template
branch only. -/
theorem claim7 :
    (chat { messages := [], orders := [], products := seedProducts, warranties := seedWarranties, nextTime := 0 }
        invalidatedCache 0 "user7" "apa kelebihan headphone" "maaf" (fun _ => none)).toolCalled =
      some "get_product_info" ∧
    (chat { messages := [], orders := [], products := seedProducts, warranties := seedWarranties, nextTime := 0 }
        invalidatedCache 0 "user7" "apa kelebihan headphone" "maaf" (fun _ => none)).toolOutput =
      some (ToolOutput.productOut
        { id := "P123", name := "Headphone Wireless"
          description := "Headphone wireless berkualitas tinggi dengan noise cancellation."
          pros := "Kualitas suara yang bagus; Nyaman dipakai; Baterai tahan lama"
          cons := "Harga mahal; Case yang besar" }) ∧
    (chat { messages := [], orders := [], products := seedProducts, warranties := seedWarranties, nextTime := 0 }
        invalidatedCache 0 "user7" "apa kelebihan headphone" "maaf" (fun _ => none)).reply =
      "Kelebihan Headphone Wireless: Kualitas suara yang bagus; Nyaman dipakai; Baterai tahan lama" := by
  decide

/-! ## C6 — the action parser agrees with the spec's brace-span description -/

/-- C6: for every raw model text and every behaviour of `json.loads`, the
action parser returns exactly the parse of the first-`{`-to-last-`}` span,
and no action when that span is absent or fails to parse; in particular it
never raises. -/
lemma natCast_bne_neg_one (n : Nat) : (((n : Int)) != -1) = true := by
  simp [bne_iff_ne]

lemma decide_intCast_lt (i j : Nat) :
    (decide ((i : Int) < (j : Int))) = decide (i < j) := by
  by_cases h : i < j
  · rw [decide_eq_true (show (i : Int) < (j : Int) by exact_mod_cast h), decide_eq_true h]
  · rw [decide_eq_false (show ¬ (i : Int) < (j : Int) by intro hc; exact h (by exact_mod_cast hc)),
      decide_eq_false h]

theorem claim6 (parse : String → Option JsonDict) (text : String) :
    try_parse_json_action parse text = (specBraceSpan text).bind parse := by
  cases h1 : firstIdx '\x7b' text.toList with
  | none =>
      cases h2 : firstIdx '\x7d' text.toList.reverse with
      | none =>
          simp only [try_parse_json_action, specBraceSpan, strFindChar, strRFindChar, h1, h2]
          simp
      | some rj =>
          simp only [try_parse_json_action, specBraceSpan, strFindChar, strRFindChar, h1, h2]
          simp
  | some i =>
      cases h2 : firstIdx '\x7d' text.toList.reverse with
      | none =>
          simp only [try_parse_json_action, specBraceSpan, strFindChar, strRFindChar, h1, h2]
          simp
      | some rj =>
          simp only [try_parse_json_action, specBraceSpan, strFindChar, strRFindChar, h1, h2]
          simp [natCast_bne_neg_one, decide_intCast_lt, Int.toNat_natCast]
          split <;> simp

/-! ## C8 — conversation round-trip -/

/-- Persist a list of (role, content) turns for one user, in order. -/
def persistTurns (st : Store) (uid : String) : List (String × String) → Store
  | [] => st
  | (r, c) :: rest => persistTurns (persist_message st uid r c) uid rest

/-- The message rows that persisting `turns` appends, stamped from `t0`. -/
def turnsMessages (uid : String) (t0 : Nat) : List (String × String) → List Message
  | [] => []
  | (r, c) :: rest =>
      { userId := uid, role := r, content := c, createdAt := t0 } :: turnsMessages uid (t0 + 1) rest

lemma persistTurns_messages (uid : String) :
    ∀ (turns : List (String × String)) (st : Store),
      (persistTurns st uid turns).messages = st.messages ++ turnsMessages uid st.nextTime turns
  | [], st => by simp [persistTurns, turnsMessages]
  | (r, c) :: rest, st => by
      simp [persistTurns, turnsMessages, persistTurns_messages uid rest]

lemma turnsMessages_filter_self (uid : String) :
    ∀ (t0 : Nat) (turns : List (String × String)),
      (turnsMessages uid t0 turns).filter (fun m => m.userId == uid) = turnsMessages uid t0 turns
  | _, [] => rfl
  | t0, (r, c) :: rest => by
      simp [turnsMessages, turnsMessages_filter_self uid (t0 + 1) rest]

lemma turnsMessages_head_createdAt (uid : String) (t0 : Nat) (turns : List (String × String)) :
    ∀ m ∈ (turnsMessages uid t0 turns).head?, m.createdAt = t0 := by
  cases turns with
  | nil => simp [turnsMessages]
  | cons t rest => cases t with
    | mk r c => simp [turnsMessages]

lemma turnsMessages_chain (uid : String) :
    ∀ (t0 : Nat) (turns : List (String × String)),
      List.Chain' (fun a b => a.createdAt < b.createdAt) (turnsMessages uid t0 turns)
  | _, [] => List.chain'_nil
  | t0, (r, c) :: rest => by
      rw [turnsMessages, List.chain'_cons']
      refine ⟨?_, turnsMessages_chain uid (t0 + 1) rest⟩
      intro m hm
      rw [turnsMessages_head_createdAt uid (t0 + 1) rest m hm]
      exact Nat.lt_succ_self t0

lemma insertLe_eq_cons {α : Type} (le : α → α → Bool) (a : α) (l : List α)
    (h : ∀ b ∈ l.head?, le a b = true) : insertLe le a l = a :: l := by
  cases l with
  | nil => rfl
  | cons b bs => simp [insertLe, h b (by simp)]

lemma sortLe_eq_self {α : Type} (le : α → α → Bool) :
    ∀ l : List α, List.Chain' (fun a b => le a b = true) l → sortLe le l = l
  | [], _ => rfl
  | a :: as, h => by
      rcases List.chain'_cons'.mp h with ⟨hh, ht⟩
      rw [sortLe, sortLe_eq_self le as ht, insertLe_eq_cons le a as hh]

lemma turnsMessages_map (uid : String) :
    ∀ (t0 : Nat) (turns : List (String × String)),
      (turnsMessages uid t0 turns).map (fun m => (m.role, m.content)) = turns
  | _, [] => rfl
  | t0, (r, c) :: rest => by
      simp [turnsMessages, turnsMessages_map uid (t0 + 1) rest]

lemma turnsMessages_length (uid : String) :
    ∀ (t0 : Nat) (turns : List (String × String)),
      (turnsMessages uid t0 turns).length = turns.length
  | _, [] => rfl
  | t0, (r, c) :: rest => by
      simp [turnsMessages, turnsMessages_length uid (t0 + 1) rest]

/-- C8: persisting `N` conversation turns for a user and then fetching all
messages for that user returns exactly `N` items, ordered by creation
time, with each item's role and content equal to what was persisted. -/
theorem claim8 (st : Store) (uid : String) (turns : List (String × String))
    (h : st.messages.filter (fun m => m.userId == uid) = []) :
    (get_all_messages_for_user (persistTurns st uid turns) uid).length = turns.length ∧
    (get_all_messages_for_user (persistTurns st uid turns) uid).map (fun r => (r.role, r.content)) = turns ∧
    List.Chain' (fun a b => a.createdAt < b.createdAt)
      (get_all_messages_for_user (persistTurns st uid turns) uid) := by
  have hmsg := persistTurns_messages uid turns st
  unfold get_all_messages_for_user
  rw [hmsg, List.filter_append, h, List.nil_append, turnsMessages_filter_self]
  have hchain := turnsMessages_chain uid st.nextTime turns
  rw [sortLe_eq_self _ _ (hchain.imp (fun _ _ hab => decide_eq_true (Nat.le_of_lt hab)))]
  refine ⟨by simpa using turnsMessages_length uid st.nextTime turns, ?_, ?_⟩
  · have := turnsMessages_map uid st.nextTime turns
    simpa [Function.comp, List.map_map] using this
  · rw [List.chain'_map]
    exact hchain

/-- Witness for C8 on two persisted turns over an empty store. -/
theorem claim8_witness :
    (({ messages := [], orders := [], products := [], warranties := [], nextTime := 0 } : Store).messages.filter
        (fun m => m.userId == "u1") = []) ∧
    ((get_all_messages_for_user
        (persistTurns { messages := [], orders := [], products := [], warranties := [], nextTime := 0 } "u1"
          [("user", "halo"), ("assistant", "hai")]) "u1").length = 2 ∧
      (get_all_messages_for_user
        (persistTurns { messages := [], orders := [], products := [], warranties := [], nextTime := 0 } "u1"
          [("user", "halo"), ("assistant", "hai")]) "u1").map (fun r => (r.role, r.content)) =
        [("user", "halo"), ("assistant", "hai")] ∧
      List.Chain' (fun a b => a.createdAt < b.createdAt)
        (get_all_messages_for_user
          (persistTurns { messages := [], orders := [], products := [], warranties := [], nextTime := 0 } "u1"
            [("user", "halo"), ("assistant", "hai")]) "u1")) := by
  refine ⟨by decide, ?_⟩
  have := claim8 { messages := [], orders := [], products := [], warranties := [], nextTime := 0 } "u1"
    [("user", "halo"), ("assistant", "hai")] (by decide)
  simpa using this

/-! ## Safeguard lemmas -/

lemma safeguard_noAction_of (orders : List Order) (uid msg : String) (lm : List HistMsg)
    (hW : containsAnyWordCI safeguardKeywords msg = false) :
    handle_warranty_safeguard orders uid msg lm = SafeguardResult.noAction := by
  simp [handle_warranty_safeguard, hW]

lemma safeguard_action_of (orders : List Order) (uid msg : String) (lm : List HistMsg)
    (pid : List Char)
    (hW : containsAnyWordCI safeguardKeywords msg = true)
    (hP : searchPIdWord none msg.toList = some pid) :
    handle_warranty_safeguard orders uid msg lm =
      SafeguardResult.action { action := "get_warranty_info", actionInput := String.mk pid } := by
  have hP2 : searchPIdWord none msg.data = some pid := hP
  simp [handle_warranty_safeguard, hW, hP2]

lemma firstHistoryProductId_eq_none :
    ∀ lm : List HistMsg,
      (∀ m ∈ lm, searchPIdWord none m.content.toList = none) → firstHistoryProductId lm = none
  | [], _ => rfl
  | m :: rest, h => by
      have hm : searchPIdWord none m.content.data = none := h m (List.mem_cons_self m rest)
      simp [firstHistoryProductId, hm,
        firstHistoryProductId_eq_none rest (fun x hx => h x (List.mem_cons_of_mem m hx))]

lemma safeguard_askProduct_of (orders : List Order) (uid msg : String) (lm : List HistMsg)
    (hW : containsAnyWordCI safeguardKeywords msg = true)
    (hP : searchPIdWord none msg.toList = none)
    (hO : orders.filter (fun o => o.userId == uid) = [])
    (hH : firstHistoryProductId lm = none) :
    handle_warranty_safeguard orders uid msg lm = SafeguardResult.askProduct := by
  have hP2 : searchPIdWord none msg.data = none := hP
  simp [handle_warranty_safeguard, hW, hP2, get_latest_order_for_user, hO, hH]

/-! ## Chat-pipeline execution lemmas -/

/-- When the safeguard produces a concrete action, `chat` executes exactly
that action — no matter what the model text parsed to. -/
lemma chat_eq_of_safeguard_action (st : Store) (cache : CacheState) (now : Nat)
    (uid rawMessage llmText : String) (parse : String → Option JsonDict) (a b : String)
    (hsg : handle_warranty_safeguard (persist_message st uid "user" (pyStrip rawMessage)).orders uid
        (pyStrip rawMessage)
        (get_last_n_messages (persist_message st uid "user" (pyStrip rawMessage)) uid 3) =
      SafeguardResult.action { action := a, actionInput := b })
    (hne1 : a ≠ "none") (hne2 : a ≠ "") :
    chat st cache now uid rawMessage llmText parse =
      (let st1 := persist_message st uid "user" (pyStrip rawMessage)
       let lm := get_last_n_messages st1 uid 3
       let outRep := run_tool st1 uid (pyStrip rawMessage) lm a b
       { store := persist_message (persist_message st1 uid "tool" (toolMessage a outRep.1)) uid
           "assistant" outRep.2
         cache := cache
         reply := outRep.2
         toolCalled := some a
         toolOutput := outRep.1 }) := by
  have hb1 : (some a == some "none") = false := by
    have h : (some a == some "none") = (a == "none") := rfl
    rw [h, beq_eq_false_iff_ne.mpr hne1]
  have hb2 : (a == "") = false := beq_eq_false_iff_ne.mpr hne2
  have hb3 : (a == "none") = false := beq_eq_false_iff_ne.mpr hne1
  have hd1 : dget [("action", a), ("action_input", b)] "action" = some a := by
    simp [dget, List.find?]
  have hd2 : dget [("action", a), ("action_input", b)] "action_input" = some b := by
    simp [dget, List.find?]
  simp only [chat]
  rw [hsg]
  simp [actionToDict, hb1, hb2, hb3, hd1, hd2]

/-- When the safeguard does not apply and the model text parses to an
action dictionary, `chat` executes that action. -/
lemma chat_eq_of_model_action (st : Store) (cache : CacheState) (now : Nat)
    (uid rawMessage llmText : String) (parse : String → Option JsonDict) (a b : String)
    (hsg : handle_warranty_safeguard (persist_message st uid "user" (pyStrip rawMessage)).orders uid
        (pyStrip rawMessage)
        (get_last_n_messages (persist_message st uid "user" (pyStrip rawMessage)) uid 3) =
      SafeguardResult.noAction)
    (hparse : try_parse_json_action parse llmText = some [("action", a), ("action_input", b)])
    (hne1 : a ≠ "none") (hne2 : a ≠ "") :
    chat st cache now uid rawMessage llmText parse =
      (let st1 := persist_message st uid "user" (pyStrip rawMessage)
       let lm := get_last_n_messages st1 uid 3
       let outRep := run_tool st1 uid (pyStrip rawMessage) lm a b
       { store := persist_message (persist_message st1 uid "tool" (toolMessage a outRep.1)) uid
           "assistant" outRep.2
         cache := cache
         reply := outRep.2
         toolCalled := some a
         toolOutput := outRep.1 }) := by
  have hb1 : (some a == some "none") = false := by
    have h : (some a == some "none") = (a == "none") := rfl
    rw [h, beq_eq_false_iff_ne.mpr hne1]
  have hb2 : (a == "") = false := beq_eq_false_iff_ne.mpr hne2
  have hb3 : (a == "none") = false := beq_eq_false_iff_ne.mpr hne1
  have hd1 : dget [("action", a), ("action_input", b)] "action" = some a := by
    simp [dget, List.find?]
  have hd2 : dget [("action", a), ("action_input", b)] "action_input" = some b := by
    simp [dget, List.find?]
  simp only [chat]
  rw [hsg]
  simp [hparse, hb1, hb2, hb3, hd1, hd2]

/-! ## C1 — explicit product id in a warranty message -/

/-- C1 counterexample: `"garansi p123"` is a warranty-intent message and
contains the (case-insensitive) product-id pattern — entity extraction
finds `"p123"` — yet the safeguard, whose own regex is case-sensitive,
returns `ask_product` rather than `get_warranty_info` with that id. -/
theorem claim1_counterexample :
    containsAnyWordCI safeguardKeywords "garansi p123" = true ∧
    ((extract_patterns invalidatedCache 0 [] "garansi p123").1).productId = some "p123" ∧
    handle_warranty_safeguard [] "u1" "garansi p123" [] = SafeguardResult.askProduct ∧
    handle_warranty_safeguard [] "u1" "garansi p123" [] ≠
      SafeguardResult.action { action := "get_warranty_info", actionInput := "p123" } := by decide

/-- C1 amended: for every chat message matching the safeguard's warranty
keywords (garansi/warranty, case-insensitive) that contains a
case-sensitive word-bounded product id (`\bP\d+\b`), the Context Resolver
returns `get_warranty_info` with that id and this action replaces any
action the model suggested for the turn: the executed tool is the warranty
lookup on that id, for every model text and every parse behaviour. -/
theorem claim1 (st : Store) (cache : CacheState) (now : Nat)
    (uid rawMessage llmText : String) (parse : String → Option JsonDict) (pid : List Char)
    (hW : containsAnyWordCI safeguardKeywords (pyStrip rawMessage) = true)
    (hP : searchPIdWord none (pyStrip rawMessage).toList = some pid) :
    (chat st cache now uid rawMessage llmText parse).toolCalled = some "get_warranty_info" ∧
    (chat st cache now uid rawMessage llmText parse).toolOutput =
      (get_warranty_info st.products st.warranties (String.mk pid)).map ToolOutput.warrantyOut := by
  have hsg := safeguard_action_of
    (persist_message st uid "user" (pyStrip rawMessage)).orders uid (pyStrip rawMessage)
    (get_last_n_messages (persist_message st uid "user" (pyStrip rawMessage)) uid 3) pid hW hP
  have hchat := chat_eq_of_safeguard_action st cache now uid rawMessage llmText parse
    "get_warranty_info" (String.mk pid) hsg (by decide) (by decide)
  rw [hchat]
  constructor
  · rfl
  · show (run_tool (persist_message st uid "user" (pyStrip rawMessage)) uid (pyStrip rawMessage)
        (get_last_n_messages (persist_message st uid "user" (pyStrip rawMessage)) uid 3)
        "get_warranty_info" (String.mk pid)).1 =
      (get_warranty_info st.products st.warranties (String.mk pid)).map ToolOutput.warrantyOut
    cases hw : get_warranty_info st.products st.warranties (String.mk pid) <;>
      simp [run_tool, hw]

/-- Witness for C1 on the seeded catalog with the message "garansi P123". -/
theorem claim1_witness :
    containsAnyWordCI safeguardKeywords (pyStrip "garansi P123") = true ∧
    searchPIdWord none (pyStrip "garansi P123").toList = some ['P', '1', '2', '3'] ∧
    ((chat { messages := [], orders := [], products := seedProducts, warranties := seedWarranties, nextTime := 0 }
        invalidatedCache 0 "user1" "garansi P123" "model suggested something else"
        (fun _ => some [("action", "get_product_info"), ("action_input", "P345")])).toolCalled =
      some "get_warranty_info" ∧
     (chat { messages := [], orders := [], products := seedProducts, warranties := seedWarranties, nextTime := 0 }
        invalidatedCache 0 "user1" "garansi P123" "model suggested something else"
        (fun _ => some [("action", "get_product_info"), ("action_input", "P345")])).toolOutput =
      (get_warranty_info seedProducts seedWarranties (String.mk ['P', '1', '2', '3'])).map
        ToolOutput.warrantyOut) :=
  ⟨by decide, by decide,
   claim1 { messages := [], orders := [], products := seedProducts, warranties := seedWarranties, nextTime := 0 }
     invalidatedCache 0 "user1" "garansi P123" "model suggested something else"
     (fun _ => some [("action", "get_product_info"), ("action_input", "P345")])
     ['P', '1', '2', '3'] (by decide) (by decide)⟩

/-! ## C5 — the clarification short-circuit mutates nothing but two turns -/

/-- C5: a user with zero orders and no stored or current message matching
the product-id pattern who sends a warranty-intent message with no
explicit product id gets the fixed clarification reply, no tool runs, and
the only store mutations are the two persisted turns (user message and
assistant clarification); orders, products and warranties are untouched. -/
theorem claim5 (st : Store) (cache : CacheState) (now : Nat)
    (uid rawMessage llmText : String) (parse : String → Option JsonDict)
    (hW : containsAnyWordCI safeguardKeywords (pyStrip rawMessage) = true)
    (hP : searchPIdWord none (pyStrip rawMessage).toList = none)
    (hO : st.orders.filter (fun o => o.userId == uid) = [])
    (hH : ∀ m ∈ st.messages, m.userId = uid → searchPIdWord none m.content.toList = none) :
    (chat st cache now uid rawMessage llmText parse).reply = askProductReply ∧
    (chat st cache now uid rawMessage llmText parse).toolCalled = none ∧
    (chat st cache now uid rawMessage llmText parse).toolOutput = none ∧
    (chat st cache now uid rawMessage llmText parse).store.messages =
      st.messages ++
        [{ userId := uid, role := "user", content := pyStrip rawMessage, createdAt := st.nextTime },
         { userId := uid, role := "assistant", content := askProductReply, createdAt := st.nextTime + 1 }] ∧
    (chat st cache now uid rawMessage llmText parse).store.orders = st.orders ∧
    (chat st cache now uid rawMessage llmText parse).store.products = st.products ∧
    (chat st cache now uid rawMessage llmText parse).store.warranties = st.warranties := by
  have hlm : firstHistoryProductId
      (get_last_n_messages (persist_message st uid "user" (pyStrip rawMessage)) uid 3) = none := by
    apply firstHistoryProductId_eq_none
    intro m hm
    rcases mem_get_last_n_messages _ _ _ m hm with ⟨m2, hmem, huid, hcontent⟩
    rw [hcontent]
    have hmem2 : m2 ∈ st.messages ∨
        m2 = { userId := uid, role := "user", content := pyStrip rawMessage, createdAt := st.nextTime } := by
      simpa using hmem
    rcases hmem2 with h2 | h2
    · exact hH m2 h2 huid
    · rw [h2]
      exact hP
  have hsg : handle_warranty_safeguard (persist_message st uid "user" (pyStrip rawMessage)).orders uid
      (pyStrip rawMessage)
      (get_last_n_messages (persist_message st uid "user" (pyStrip rawMessage)) uid 3) =
      SafeguardResult.askProduct := by
    apply safeguard_askProduct_of
    · exact hW
    · exact hP
    · simpa using hO
    · exact hlm
  have hchat : chat st cache now uid rawMessage llmText parse =
      { store := persist_message (persist_message st uid "user" (pyStrip rawMessage)) uid "assistant"
          askProductReply
        cache := cache
        reply := askProductReply
        toolCalled := none
        toolOutput := none } := by
    simp only [chat]
    rw [hsg]
  rw [hchat]
  refine ⟨rfl, rfl, rfl, ?_, rfl, rfl, rfl⟩
  simp [persist_message]

/-- Witness for C5: an empty store, the message "what about warranty?". -/
theorem claim5_witness :
    containsAnyWordCI safeguardKeywords (pyStrip "what about warranty?") = true ∧
    searchPIdWord none (pyStrip "what about warranty?").toList = none ∧
    (({ messages := [], orders := [], products := [], warranties := [], nextTime := 0 } : Store).orders.filter
        (fun o => o.userId == "u9") = []) ∧
    ((chat { messages := [], orders := [], products := [], warranties := [], nextTime := 0 }
        invalidatedCache 0 "u9" "what about warranty?" "hello there" (fun _ => none)).reply =
      askProductReply ∧
     (chat { messages := [], orders := [], products := [], warranties := [], nextTime := 0 }
        invalidatedCache 0 "u9" "what about warranty?" "hello there" (fun _ => none)).toolCalled = none ∧
     (chat { messages := [], orders := [], products := [], warranties := [], nextTime := 0 }
        invalidatedCache 0 "u9" "what about warranty?" "hello there" (fun _ => none)).toolOutput = none ∧
     (chat { messages := [], orders := [], products := [], warranties := [], nextTime := 0 }
        invalidatedCache 0 "u9" "what about warranty?" "hello there" (fun _ => none)).store.messages =
      ([] : List Message) ++
        [{ userId := "u9", role := "user", content := pyStrip "what about warranty?", createdAt := 0 },
         { userId := "u9", role := "assistant", content := askProductReply, createdAt := 0 + 1 }] ∧
     (chat { messages := [], orders := [], products := [], warranties := [], nextTime := 0 }
        invalidatedCache 0 "u9" "what about warranty?" "hello there" (fun _ => none)).store.orders = [] ∧
     (chat { messages := [], orders := [], products := [], warranties := [], nextTime := 0 }
        invalidatedCache 0 "u9" "what about warranty?" "hello there" (fun _ => none)).store.products = [] ∧
     (chat { messages := [], orders := [], products := [], warranties := [], nextTime := 0 }
        invalidatedCache 0 "u9" "what about warranty?" "hello there" (fun _ => none)).store.warranties = []) :=
  ⟨by decide, by decide, by decide,
   claim5 { messages := [], orders := [], products := [], warranties := [], nextTime := 0 }
     invalidatedCache 0 "u9" "what about warranty?" "hello there" (fun _ => none)
     (by decide) (by decide) (by decide) (by intro m hm; cases hm)⟩

/-! ## C9 — user scoping of the chat order lookup -/

/-- C9: when the chat pipeline executes `get_order_status` with a
non-empty explicit order id that belongs to a different user, the
user-scoped lookup reports `found = false` and the "not found" reply is
produced, while the unscoped `GET /order/{order_id}` lookup finds the
order. -/
theorem claim9 (st : Store) (cache : CacheState) (now : Nat)
    (uid rawMessage llmText oid : String) (parse : String → Option JsonDict)
    (hNoW : containsAnyWordCI safeguardKeywords (pyStrip rawMessage) = false)
    (hparse : try_parse_json_action parse llmText =
      some [("action", "get_order_status"), ("action_input", oid)])
    (hstrip : pyStrip oid = oid)
    (hne : oid ≠ "")
    (hOwner : ∀ o ∈ st.orders, o.orderId = oid → o.userId ≠ uid)
    (hExists : ∃ o ∈ st.orders, o.orderId = oid) :
    (chat st cache now uid rawMessage llmText parse).toolCalled = some "get_order_status" ∧
    (chat st cache now uid rawMessage llmText parse).toolOutput =
      some (ToolOutput.orderOut
        { found := false, orderId := some oid, status := none, tracking := none
          userId := none, productId := none, productName := none }) ∧
    (chat st cache now uid rawMessage llmText parse).reply =
      "Anda tidak memiliki pesanan dengan nomor tersebut." ∧
    (get_order_status st.orders st.products oid).found = true := by
  have hsg := safeguard_noAction_of
    (persist_message st uid "user" (pyStrip rawMessage)).orders uid (pyStrip rawMessage)
    (get_last_n_messages (persist_message st uid "user" (pyStrip rawMessage)) uid 3) hNoW
  have hchat := chat_eq_of_model_action st cache now uid rawMessage llmText parse
    "get_order_status" oid hsg hparse (by decide) (by decide)
  have hfind : st.orders.find? (fun o => o.orderId == oid && o.userId == uid) = none := by
    apply List.find?_eq_none.mpr
    intro x hx hp
    rcases Bool.and_eq_true_iff.mp hp with ⟨h1, h2⟩
    exact hOwner x hx (by simpa using h1) (by simpa using h2)
  have huser : get_user_order_status st.orders st.products uid oid =
      { found := false, orderId := some oid, status := none, tracking := none
        userId := none, productId := none, productName := none } := by
    unfold get_user_order_status
    rw [hfind]
  have hbne : (oid == "") = false := beq_eq_false_iff_ne.mpr hne
  rw [hchat]
  refine ⟨rfl, ?_, ?_, ?_⟩
  · show (run_tool (persist_message st uid "user" (pyStrip rawMessage)) uid (pyStrip rawMessage)
        (get_last_n_messages (persist_message st uid "user" (pyStrip rawMessage)) uid 3)
        "get_order_status" oid).1 = _
    simp [run_tool, hstrip, hbne, huser]
  · show (run_tool (persist_message st uid "user" (pyStrip rawMessage)) uid (pyStrip rawMessage)
        (get_last_n_messages (persist_message st uid "user" (pyStrip rawMessage)) uid 3)
        "get_order_status" oid).2 = _
    simp [run_tool, hstrip, hbne, huser, orderReply]
  · rcases hExists with ⟨o, ho, hoid⟩
    have hsome : (st.orders.find? (fun o => o.orderId == oid)).isSome :=
      List.find?_isSome.mpr ⟨o, ho, by simpa using hoid⟩
    cases hf : st.orders.find? (fun o => o.orderId == oid) with
    | none => rw [hf] at hsome; simp at hsome
    | some o2 =>
        unfold get_order_status
        rw [hf]
        rfl

/-- An order belonging to `"user2"`, used by the C9 witness. -/
def ord77 : Order :=
  { orderId := "ORD77", userId := "user2", status := "Shipped", tracking := none
    createdAt := 0, productId := "P123" }

/-- The store for the C9 witness. -/
def c9Store : Store :=
  { messages := [], orders := [ord77], products := seedProducts
    warranties := seedWarranties, nextTime := 0 }

/-- The parse behaviour for the C9 witness. -/
def c9Parse : String → Option JsonDict :=
  fun _ => some [("action", "get_order_status"), ("action_input", "ORD77")]

/-- Witness for C9: the order ORD77 belongs to "user2"; "user1" asks for
it through the pipeline and is told it is not found, while the unscoped
endpoint lookup finds it. -/
theorem claim9_witness :
    containsAnyWordCI safeguardKeywords (pyStrip "dimana ORD77?") = false ∧
    try_parse_json_action c9Parse "\x7b\x7d" =
      some [("action", "get_order_status"), ("action_input", "ORD77")] ∧
    (∃ o ∈ c9Store.orders, o.orderId = "ORD77") ∧
    ((chat c9Store invalidatedCache 0 "user1" "dimana ORD77?" "\x7b\x7d" c9Parse).toolCalled =
      some "get_order_status" ∧
     (chat c9Store invalidatedCache 0 "user1" "dimana ORD77?" "\x7b\x7d" c9Parse).toolOutput =
      some (ToolOutput.orderOut
        { found := false, orderId := some "ORD77", status := none, tracking := none
          userId := none, productId := none, productName := none }) ∧
     (chat c9Store invalidatedCache 0 "user1" "dimana ORD77?" "\x7b\x7d" c9Parse).reply =
      "Anda tidak memiliki pesanan dengan nomor tersebut." ∧
     (get_order_status c9Store.orders c9Store.products "ORD77").found = true) :=
  ⟨by decide, by decide, ⟨ord77, by simp [c9Store], rfl⟩,
   claim9 c9Store invalidatedCache 0 "user1" "dimana ORD77?" "\x7b\x7d" "ORD77" c9Parse
     (by decide) (by decide) (by decide) (by decide) (by decide)
     ⟨ord77, by simp [c9Store], rfl⟩⟩

end Ecom
